import Mathlib

/-!
Shallow embedding of the crypto-strategy-analysis backtester.

Real numbers of the source (`f64`) are modelled as `ℚ`; Rust `Vec` push is
list append at the tail; `Result<T>` is `Except String T`, and a Rust method
`fn f(&mut self, ...) -> Result<()>` becomes `Account → ... → Account × Except String Unit`
(on the error path the Rust method returns before any mutation, so the
returned account equals the input there).
-/

namespace CryptoStrategy

/-- Calendar timestamp, modelling `chrono::NaiveDateTime` to the precision the
program inspects (only `month()` is ever read; the rest is carried opaquely). -/
structure NaiveDateTime where
  year : Int
  month : Nat
  day : Nat
  deriving DecidableEq, Repr

/-- `Position` from `account.rs`. -/
@[ext]
structure Position where
  quantity : ℚ
  cost : ℚ
  deriving DecidableEq, Repr

/-- `BuySellIndicator` from `account.rs`. -/
inductive BuySellIndicator where
  | buy
  | sell
  deriving DecidableEq, Repr

/-- `Trade` from `account.rs`. -/
structure Trade where
  timestamp : NaiveDateTime
  buy_sell_indicator : BuySellIndicator
  quantity : ℚ
  price : ℚ
  fee : ℚ
  deriving DecidableEq, Repr

/-- `TimeValue` (valuation snapshot) from `account.rs`. -/
structure TimeValue where
  timestamp : NaiveDateTime
  realised_pnl : ℚ
  unrealised_pnl : ℚ
  deriving DecidableEq, Repr

/-- `Account` from `account.rs`. -/
structure Account where
  available_fund : ℚ
  position : Position
  profit_and_loss_history : List TimeValue
  trade_history : List Trade
  deriving DecidableEq, Repr

/-- `Account::new`. -/
def Account.new (fund : ℚ) (initial_position : Position) (start_timestamp : NaiveDateTime) :
    Account :=
  { available_fund := fund
    position := initial_position
    profit_and_loss_history :=
      [{ timestamp := start_timestamp, realised_pnl := 0, unrealised_pnl := 0 }]
    trade_history := [] }

/-- `Account::average_cost`.  Note: in the source this is an `f64` division with
no guard; when `position.quantity + quantity = 0` the `f64` result is
non-finite (±∞ or NaN), while in this `ℚ` model division by zero yields `0`.
The divisor-zero condition is therefore tracked separately by
`Account.average_cost_divisor_ne_zero`. -/
def Account.average_cost (self : Account) (quantity price : ℚ) : ℚ :=
  (self.position.quantity * self.position.cost + quantity * price) /
    (self.position.quantity + quantity)

/-- The condition under which the source's `average_cost` division is defined
(its `f64` value is finite exactly when the divisor is non-zero). -/
def Account.average_cost_divisor_ne_zero (self : Account) (quantity : ℚ) : Prop :=
  self.position.quantity + quantity ≠ 0

instance (self : Account) (quantity : ℚ) :
    Decidable (self.average_cost_divisor_ne_zero quantity) := by
  unfold Account.average_cost_divisor_ne_zero
  infer_instance

/-- `Account::open`.  The Rust signature is `fn open(&mut self, ...)` with no
`Result`: it cannot raise an error. -/
def Account.«open» (self : Account) (timestamp : NaiveDateTime) (quantity price fee : ℚ) :
    Account :=
  { self with
    position :=
      { cost := self.average_cost quantity price
        quantity := self.position.quantity + quantity }
    available_fund := self.available_fund - (price * quantity + fee)
    trade_history :=
      self.trade_history ++
        [{ timestamp := timestamp, buy_sell_indicator := .buy,
           quantity := quantity, price := price, fee := fee }] }

/-- `Account::close` (`fn close(&mut self, ...) -> Result<()>`). -/
def Account.close (self : Account) (timestamp : NaiveDateTime) (quantity price fee : ℚ) :
    Account × Except String Unit :=
  match self.profit_and_loss_history.getLast? with
  | none => (self, .error "No PnL history")
  | some last_pnl =>
    let current_pnl := quantity * (price - self.position.cost)
    let realised_pnl := last_pnl.realised_pnl + current_pnl
    let unrealised_pnl := last_pnl.unrealised_pnl - current_pnl
    ({ self with
        profit_and_loss_history :=
          self.profit_and_loss_history ++
            [{ timestamp := timestamp, realised_pnl := realised_pnl,
               unrealised_pnl := unrealised_pnl }]
        position := { self.position with quantity := self.position.quantity - quantity }
        available_fund := self.available_fund + (price * quantity - fee)
        trade_history :=
          self.trade_history ++
            [{ timestamp := timestamp, buy_sell_indicator := .sell,
               quantity := quantity, price := price, fee := fee }] },
      .ok ())

/-- `Account::mark_to_market` (`fn mark_to_market(&mut self, ...) -> Result<()>`). -/
def Account.mark_to_market (self : Account) (timestamp : NaiveDateTime)
    (closing_price : ℚ) : Account × Except String Unit :=
  match self.profit_and_loss_history.getLast? with
  | none => (self, .error "No PnL history")
  | some last_pnl =>
    let unrealised_pnl := self.position.quantity * (closing_price - self.position.cost)
    ({ self with
        profit_and_loss_history :=
          self.profit_and_loss_history ++
            [{ timestamp := timestamp, realised_pnl := last_pnl.realised_pnl,
               unrealised_pnl := unrealised_pnl }] },
      .ok ())

/-- C2: for every account with a non-empty valuation history, `close` appends
exactly one snapshot with `realisedPnl = last.realisedPnl + q·(p − cost)` and
`unrealisedPnl = last.unrealisedPnl − q·(p − cost)`, decreases the position
quantity by `q` leaving the cost basis unchanged, adds `p·q − fee` to the
available fund, and appends exactly one Sell trade. -/
theorem close_spec (acc : Account) (ts : NaiveDateTime) (q p f : ℚ) (last : TimeValue)
    (h : acc.profit_and_loss_history.getLast? = some last) :
    (acc.close ts q p f).2 = .ok () ∧
    (acc.close ts q p f).1.profit_and_loss_history =
      acc.profit_and_loss_history ++
        [{ timestamp := ts
           realised_pnl := last.realised_pnl + q * (p - acc.position.cost)
           unrealised_pnl := last.unrealised_pnl - q * (p - acc.position.cost) }] ∧
    (acc.close ts q p f).1.position.quantity = acc.position.quantity - q ∧
    (acc.close ts q p f).1.position.cost = acc.position.cost ∧
    (acc.close ts q p f).1.available_fund = acc.available_fund + (p * q - f) ∧
    (acc.close ts q p f).1.trade_history =
      acc.trade_history ++
        [{ timestamp := ts, buy_sell_indicator := .sell,
           quantity := q, price := p, fee := f }] := by
  simp only [Account.close, h]
  simp

/-- Witness for `close_spec`: Scenario B.  From position `{quantity 100, cost 10}`
and fund `1000`, `close(50, 20, 0.02)` gives position `{cost 10, quantity 50}`,
fund `1999.98`, and last snapshot `{realised 500, unrealised −500}`. -/
theorem close_spec_witness :
    ((Account.new 1000 ⟨100, 10⟩ ⟨2021, 9, 1⟩).profit_and_loss_history.getLast? =
      some { timestamp := ⟨2021, 9, 1⟩, realised_pnl := 0, unrealised_pnl := 0 }) ∧
    ((Account.new 1000 ⟨100, 10⟩ ⟨2021, 9, 1⟩).close ⟨2021, 10, 31⟩ 50 20 0.02).2 = .ok () ∧
    ((Account.new 1000 ⟨100, 10⟩ ⟨2021, 9, 1⟩).close ⟨2021, 10, 31⟩ 50 20 0.02).1.position =
      { quantity := 50, cost := 10 } ∧
    ((Account.new 1000 ⟨100, 10⟩ ⟨2021, 9, 1⟩).close
        ⟨2021, 10, 31⟩ 50 20 0.02).1.available_fund = 1999.98 ∧
    ((Account.new 1000 ⟨100, 10⟩ ⟨2021, 9, 1⟩).close
        ⟨2021, 10, 31⟩ 50 20 0.02).1.profit_and_loss_history.getLast? =
      some { timestamp := ⟨2021, 10, 31⟩, realised_pnl := 500, unrealised_pnl := -500 } := by
  have h := close_spec (Account.new 1000 ⟨100, 10⟩ ⟨2021, 9, 1⟩) ⟨2021, 10, 31⟩ 50 20 0.02
    { timestamp := ⟨2021, 9, 1⟩, realised_pnl := 0, unrealised_pnl := 0 } (by decide)
  obtain ⟨h1, h2, h3, h4, h5, h6⟩ := h
  refine ⟨by decide, h1, ?_, ?_, ?_⟩
  · exact Position.ext (by rw [h3]; norm_num [Account.new]) (by rw [h4]; norm_num [Account.new])
  · rw [h5]; norm_num [Account.new]
  · rw [h2]; norm_num [Account.new]

/-- C3: when the old position quantity plus the opened quantity is non-zero,
`open` sets the cost basis to the quantity-weighted average
`(oldQty·oldCost + q·p)/(oldQty + q)`, adds `q` to the position quantity,
subtracts `p·q + fee` from the available fund, appends exactly one Buy trade,
and appends no valuation snapshot.  The second conjunct states the weighted
average multiplicatively, which genuinely needs the non-zero divisor. -/
theorem open_spec (acc : Account) (ts : NaiveDateTime) (q p f : ℚ)
    (h : acc.position.quantity + q ≠ 0) :
    (acc.«open» ts q p f).position.cost =
      (acc.position.quantity * acc.position.cost + q * p) / (acc.position.quantity + q) ∧
    (acc.«open» ts q p f).position.cost * (acc.position.quantity + q) =
      acc.position.quantity * acc.position.cost + q * p ∧
    (acc.«open» ts q p f).position.quantity = acc.position.quantity + q ∧
    (acc.«open» ts q p f).available_fund = acc.available_fund - (p * q + f) ∧
    (acc.«open» ts q p f).trade_history =
      acc.trade_history ++
        [{ timestamp := ts, buy_sell_indicator := .buy,
           quantity := q, price := p, fee := f }] ∧
    (acc.«open» ts q p f).profit_and_loss_history = acc.profit_and_loss_history := by
  refine ⟨rfl, ?_, rfl, rfl, rfl, rfl⟩
  show (acc.position.quantity * acc.position.cost + q * p) / (acc.position.quantity + q) *
      (acc.position.quantity + q) = _
  exact div_mul_cancel₀ _ h

/-- Witness for `open_spec`: Scenario A.  From position `{quantity 100, cost 10}`
and fund `7000`, `open(100, 20, 0.02)` gives position `{cost 15, quantity 200}`
and fund `4999.98`. -/
theorem open_spec_witness :
    (Account.new 7000 ⟨100, 10⟩ ⟨2021, 9, 1⟩).position.quantity + 100 ≠ 0 ∧
    ((Account.new 7000 ⟨100, 10⟩ ⟨2021, 9, 1⟩).«open» ⟨2021, 10, 31⟩ 100 20 0.02).position =
      { quantity := 200, cost := 15 } ∧
    ((Account.new 7000 ⟨100, 10⟩ ⟨2021, 9, 1⟩).«open»
        ⟨2021, 10, 31⟩ 100 20 0.02).available_fund = 4999.98 := by
  have h0 : (Account.new 7000 ⟨100, 10⟩ ⟨2021, 9, 1⟩).position.quantity + 100 ≠ 0 := by
    norm_num [Account.new]
  have h := open_spec (Account.new 7000 ⟨100, 10⟩ ⟨2021, 9, 1⟩) ⟨2021, 10, 31⟩ 100 20 0.02 h0
  obtain ⟨h1, _, h3, h4, _, _⟩ := h
  refine ⟨h0, Position.ext (by rw [h3]; norm_num [Account.new])
    (by rw [h1]; norm_num [Account.new]), by rw [h4]; norm_num [Account.new]⟩

/-- C4: with a non-empty valuation history, `mark_to_market` appends exactly one
snapshot with `unrealisedPnl = position.quantity·(closingPrice − cost)` and the
prior snapshot's `realisedPnl`, and leaves trades, fund and position unchanged. -/
theorem mark_to_market_spec (acc : Account) (ts : NaiveDateTime) (cp : ℚ) (last : TimeValue)
    (h : acc.profit_and_loss_history.getLast? = some last) :
    (acc.mark_to_market ts cp).2 = .ok () ∧
    (acc.mark_to_market ts cp).1.profit_and_loss_history =
      acc.profit_and_loss_history ++
        [{ timestamp := ts
           realised_pnl := last.realised_pnl
           unrealised_pnl := acc.position.quantity * (cp - acc.position.cost) }] ∧
    (acc.mark_to_market ts cp).1.trade_history = acc.trade_history ∧
    (acc.mark_to_market ts cp).1.available_fund = acc.available_fund ∧
    (acc.mark_to_market ts cp).1.position = acc.position := by
  simp only [Account.mark_to_market, h]
  simp

/-- Witness for `mark_to_market_spec`: Scenario C.  From position
`{quantity 100, cost 10}` and fund `5000`, `markToMarket(20)` appends the
snapshot `{realised 0, unrealised 1000}` and changes nothing else. -/
theorem mark_to_market_spec_witness :
    ((Account.new 5000 ⟨100, 10⟩ ⟨2021, 9, 1⟩).profit_and_loss_history.getLast? =
      some { timestamp := ⟨2021, 9, 1⟩, realised_pnl := 0, unrealised_pnl := 0 }) ∧
    ((Account.new 5000 ⟨100, 10⟩ ⟨2021, 9, 1⟩).mark_to_market ⟨2021, 10, 31⟩ 20).2 = .ok () ∧
    ((Account.new 5000 ⟨100, 10⟩ ⟨2021, 9, 1⟩).mark_to_market
        ⟨2021, 10, 31⟩ 20).1.profit_and_loss_history.getLast? =
      some { timestamp := ⟨2021, 10, 31⟩, realised_pnl := 0, unrealised_pnl := 1000 } ∧
    ((Account.new 5000 ⟨100, 10⟩ ⟨2021, 9, 1⟩).mark_to_market ⟨2021, 10, 31⟩ 20).1.position =
      (Account.new 5000 ⟨100, 10⟩ ⟨2021, 9, 1⟩).position ∧
    ((Account.new 5000 ⟨100, 10⟩ ⟨2021, 9, 1⟩).mark_to_market ⟨2021, 10, 31⟩ 20).1.available_fund =
      (Account.new 5000 ⟨100, 10⟩ ⟨2021, 9, 1⟩).available_fund := by
  have h := mark_to_market_spec (Account.new 5000 ⟨100, 10⟩ ⟨2021, 9, 1⟩) ⟨2021, 10, 31⟩ 20
    { timestamp := ⟨2021, 9, 1⟩, realised_pnl := 0, unrealised_pnl := 0 } (by decide)
  obtain ⟨h1, h2, _, h4, h5⟩ := h
  refine ⟨by decide, h1, ?_, h5, h4⟩
  rw [h2]; norm_num [Account.new]

/-- C10: a successful `close` conserves total PnL — the sum
`realisedPnl + unrealisedPnl` of the newly appended snapshot equals that same
sum in the immediately preceding snapshot. -/
theorem close_conserves_total_pnl (acc : Account) (ts : NaiveDateTime) (q p f : ℚ)
    (last : TimeValue) (h : acc.profit_and_loss_history.getLast? = some last) :
    (acc.close ts q p f).2 = .ok () ∧
    ∃ newLast : TimeValue,
      (acc.close ts q p f).1.profit_and_loss_history.getLast? = some newLast ∧
      newLast.realised_pnl + newLast.unrealised_pnl =
        last.realised_pnl + last.unrealised_pnl := by
  refine ⟨by simp [Account.close, h], ?_⟩
  refine ⟨{ timestamp := ts
            realised_pnl := last.realised_pnl + q * (p - acc.position.cost)
            unrealised_pnl := last.unrealised_pnl - q * (p - acc.position.cost) }, ?_, by ring⟩
  show ((acc.close ts q p f).1.profit_and_loss_history).getLast? = _
  simp only [Account.close, h]
  exact List.getLast?_concat _

/-- Witness for `close_conserves_total_pnl` at Scenario B's input. -/
theorem close_conserves_total_pnl_witness :
    ((Account.new 1000 ⟨100, 10⟩ ⟨2021, 9, 1⟩).profit_and_loss_history.getLast? =
      some { timestamp := ⟨2021, 9, 1⟩, realised_pnl := 0, unrealised_pnl := 0 }) ∧
    ((Account.new 1000 ⟨100, 10⟩ ⟨2021, 9, 1⟩).close ⟨2021, 10, 31⟩ 50 20 0.02).2 = .ok () ∧
    ∃ newLast : TimeValue,
      ((Account.new 1000 ⟨100, 10⟩ ⟨2021, 9, 1⟩).close
          ⟨2021, 10, 31⟩ 50 20 0.02).1.profit_and_loss_history.getLast? = some newLast ∧
      newLast.realised_pnl + newLast.unrealised_pnl = 0 + 0 := by
  have h := close_conserves_total_pnl (Account.new 1000 ⟨100, 10⟩ ⟨2021, 9, 1⟩)
    ⟨2021, 10, 31⟩ 50 20 0.02
    { timestamp := ⟨2021, 9, 1⟩, realised_pnl := 0, unrealised_pnl := 0 } (by decide)
  exact ⟨by decide, h.1, h.2⟩

/-- C1 (divergence): the source's `Account::open` has no error channel at all
(`fn open(&mut self, ...)` returns unit, not `Result`), so it can never raise a
`ComputationError`.  At the concrete input below the combined quantity
`oldQty + quantity` is zero, so the source's `f64` cost-basis division is by
zero and stores a non-finite cost; `open` nonetheless completes normally and
appends its Buy trade. -/
theorem open_zero_combined_quantity_no_error :
    ¬ (Account.new 1000 ⟨100, 10⟩ ⟨2021, 9, 1⟩).average_cost_divisor_ne_zero (-100) ∧
    ((Account.new 1000 ⟨100, 10⟩ ⟨2021, 9, 1⟩).«open»
        ⟨2021, 10, 31⟩ (-100) 20 0.02).trade_history =
      [{ timestamp := ⟨2021, 10, 31⟩, buy_sell_indicator := .buy,
         quantity := -100, price := 20, fee := 0.02 }] ∧
    ((Account.new 1000 ⟨100, 10⟩ ⟨2021, 9, 1⟩).«open»
        ⟨2021, 10, 31⟩ (-100) 20 0.02).position.quantity = 0 := by
  refine ⟨?_, rfl, ?_⟩
  · simp [Account.average_cost_divisor_ne_zero, Account.new]
  · show (100 : ℚ) + (-100) = 0
    norm_num

/-- One ledger trade call: an `open` or a `close` with its arguments. -/
inductive AccountOp where
  | opn (ts : NaiveDateTime) (quantity price fee : ℚ)
  | cls (ts : NaiveDateTime) (quantity price fee : ℚ)
  deriving DecidableEq, Repr

/-- Sum of the quantities passed to the `open` calls of a call sequence. -/
def openedQuantity : List AccountOp → ℚ
  | [] => 0
  | .opn _ q _ _ :: ops => q + openedQuantity ops
  | .cls _ _ _ _ :: ops => openedQuantity ops

/-- Sum of the quantities passed to the `close` calls of a call sequence. -/
def closedQuantity : List AccountOp → ℚ
  | [] => 0
  | .opn _ _ _ _ :: ops => closedQuantity ops
  | .cls _ q _ _ :: ops => q + closedQuantity ops

/-- Perform one trade call on the account. -/
def Account.applyOp (acc : Account) : AccountOp → Account × Except String Unit
  | .opn ts q p f => (acc.«open» ts q p f, .ok ())
  | .cls ts q p f => acc.close ts q p f

/-- Perform a sequence of trade calls, stopping at the first error
(as the run loop propagates errors immediately). -/
def Account.applyOps : Account → List AccountOp → Account × Except String Unit
  | acc, [] => (acc, .ok ())
  | acc, op :: ops =>
    match acc.applyOp op with
    | (acc', .ok _) => acc'.applyOps ops
    | (acc', .error e) => (acc', .error e)

theorem close_of_ne_nil (acc : Account) (ts : NaiveDateTime) (q p f : ℚ)
    (h : acc.profit_and_loss_history ≠ []) :
    (acc.close ts q p f).2 = .ok () ∧
    (acc.close ts q p f).1.position.quantity = acc.position.quantity - q ∧
    (acc.close ts q p f).1.profit_and_loss_history ≠ [] := by
  rcases hl : acc.profit_and_loss_history.getLast? with _ | last
  · exact absurd (List.getLast?_eq_none_iff.mp hl) h
  · refine ⟨by simp [Account.close, hl], by simp [Account.close, hl], ?_⟩
    simp [Account.close, hl]

theorem applyOps_quantity (ops : List AccountOp) :
    ∀ acc : Account, acc.profit_and_loss_history ≠ [] →
      (acc.applyOps ops).2 = .ok () ∧
      (acc.applyOps ops).1.position.quantity =
        acc.position.quantity + openedQuantity ops - closedQuantity ops ∧
      (acc.applyOps ops).1.profit_and_loss_history ≠ [] := by
  induction ops with
  | nil => intro acc h; exact ⟨rfl, by simp [Account.applyOps, openedQuantity, closedQuantity], h⟩
  | cons op ops ih =>
    intro acc h
    match op with
    | .opn ts q p f =>
      have step : acc.applyOp (.opn ts q p f) = (acc.«open» ts q p f, .ok ()) := rfl
      have hne : (acc.«open» ts q p f).profit_and_loss_history ≠ [] := h
      have hrest := ih (acc.«open» ts q p f) hne
      have hq : (acc.«open» ts q p f).position.quantity = acc.position.quantity + q := rfl
      refine ⟨?_, ?_, ?_⟩
      · show ((acc.«open» ts q p f).applyOps ops).2 = .ok ()
        exact hrest.1
      · show ((acc.«open» ts q p f).applyOps ops).1.position.quantity = _
        rw [hrest.2.1, hq]
        simp [openedQuantity, closedQuantity]
        ring
      · exact hrest.2.2
    | .cls ts q p f =>
      obtain ⟨hok, hq, hne⟩ := close_of_ne_nil acc ts q p f h
      rcases hcl : acc.close ts q p f with ⟨acc', r⟩
      rw [hcl] at hok hq hne
      simp only at hok hq hne
      subst hok
      have step : acc.applyOps (.cls ts q p f :: ops) = acc'.applyOps ops := by
        show (match acc.applyOp (.cls ts q p f) with
          | (a, .ok _) => a.applyOps ops
          | (a, .error e) => (a, .error e)) = _
        rw [show acc.applyOp (.cls ts q p f) = acc.close ts q p f from rfl, hcl]
      have hrest := ih acc' hne
      rw [step]
      refine ⟨hrest.1, ?_, hrest.2.2⟩
      rw [hrest.2.1, hq]
      simp [openedQuantity, closedQuantity]
      ring

/-- C5: for every account with a (post-construction) non-empty valuation
history and every finite sequence of `open`/`close` calls, every call succeeds
and the final position quantity is the initial quantity plus the sum of opened
quantities minus the sum of closed quantities; no error is raised even when the
result goes negative. -/
theorem quantity_conservation (acc : Account) (ops : List AccountOp)
    (h : acc.profit_and_loss_history ≠ []) :
    (acc.applyOps ops).2 = .ok () ∧
    (acc.applyOps ops).1.position.quantity =
      acc.position.quantity + openedQuantity ops - closedQuantity ops :=
  ⟨(applyOps_quantity ops acc h).1, (applyOps_quantity ops acc h).2.1⟩

/-- Witness for `quantity_conservation`: from a fresh account with zero
position, closing 5 then opening 2 succeeds and leaves quantity `-3 < 0`. -/
theorem quantity_conservation_witness :
    (Account.new 1000 ⟨0, 0⟩ ⟨2024, 1, 1⟩).profit_and_loss_history ≠ [] ∧
    ((Account.new 1000 ⟨0, 0⟩ ⟨2024, 1, 1⟩).applyOps
        [.cls ⟨2024, 1, 2⟩ 5 10 0, .opn ⟨2024, 1, 3⟩ 2 10 0]).2 = .ok () ∧
    ((Account.new 1000 ⟨0, 0⟩ ⟨2024, 1, 1⟩).applyOps
        [.cls ⟨2024, 1, 2⟩ 5 10 0, .opn ⟨2024, 1, 3⟩ 2 10 0]).1.position.quantity = -3 ∧
    (-3 : ℚ) < 0 := by
  have h0 : (Account.new 1000 ⟨0, 0⟩ ⟨2024, 1, 1⟩).profit_and_loss_history ≠ [] := by
    simp [Account.new]
  have h := quantity_conservation (Account.new 1000 ⟨0, 0⟩ ⟨2024, 1, 1⟩)
    [.cls ⟨2024, 1, 2⟩ 5 10 0, .opn ⟨2024, 1, 3⟩ 2 10 0] h0
  refine ⟨h0, h.1, ?_, by norm_num⟩
  rw [h.2]
  norm_num [openedQuantity, closedQuantity, Account.new]

/-- One ledger mutation: `open`, `close`, or `mark_to_market`. -/
inductive AccountMutation where
  | opn (ts : NaiveDateTime) (quantity price fee : ℚ)
  | cls (ts : NaiveDateTime) (quantity price fee : ℚ)
  | mtm (ts : NaiveDateTime) (closing_price : ℚ)
  deriving DecidableEq, Repr

/-- Perform one mutation on the account. -/
def Account.applyMutation (acc : Account) : AccountMutation → Account × Except String Unit
  | .opn ts q p f => (acc.«open» ts q p f, .ok ())
  | .cls ts q p f => acc.close ts q p f
  | .mtm ts cp => acc.mark_to_market ts cp

/-- Perform a sequence of mutations, stopping at the first error. -/
def Account.applyMutations : Account → List AccountMutation → Account × Except String Unit
  | acc, [] => (acc, .ok ())
  | acc, m :: ms =>
    match acc.applyMutation m with
    | (acc', .ok _) => acc'.applyMutations ms
    | (acc', .error e) => (acc', .error e)

theorem applyMutations_ok (ms : List AccountMutation) :
    ∀ acc : Account, acc.profit_and_loss_history ≠ [] →
      (acc.applyMutations ms).2 = .ok () ∧
      (acc.applyMutations ms).1.profit_and_loss_history ≠ [] := by
  induction ms with
  | nil => intro acc h; exact ⟨rfl, h⟩
  | cons m ms ih =>
    intro acc h
    rcases hl : acc.profit_and_loss_history.getLast? with _ | last
    · exact absurd (List.getLast?_eq_none_iff.mp hl) h
    match m with
    | .opn ts q p f =>
      exact ih (acc.«open» ts q p f) h
    | .cls ts q p f =>
      have hok : (acc.close ts q p f).2 = .ok () := by simp [Account.close, hl]
      have hne : (acc.close ts q p f).1.profit_and_loss_history ≠ [] := by
        simp [Account.close, hl]
      rcases hcl : acc.close ts q p f with ⟨acc', r⟩
      rw [hcl] at hok hne
      simp only at hok hne
      subst hok
      have hrun : acc.applyMutations (.cls ts q p f :: ms) = acc'.applyMutations ms := by
        show (match acc.applyMutation (.cls ts q p f) with
          | (a, .ok _) => a.applyMutations ms
          | (a, .error e) => (a, .error e)) = _
        rw [show acc.applyMutation (.cls ts q p f) = acc.close ts q p f from rfl, hcl]
      rw [hrun]
      exact ih _ hne
    | .mtm ts cp =>
      have hok : (acc.mark_to_market ts cp).2 = .ok () := by simp [Account.mark_to_market, hl]
      have hne : (acc.mark_to_market ts cp).1.profit_and_loss_history ≠ [] := by
        simp [Account.mark_to_market, hl]
      rcases hcl : acc.mark_to_market ts cp with ⟨acc', r⟩
      rw [hcl] at hok hne
      simp only at hok hne
      subst hok
      have hrun : acc.applyMutations (.mtm ts cp :: ms) = acc'.applyMutations ms := by
        show (match acc.applyMutation (.mtm ts cp) with
          | (a, .ok _) => a.applyMutations ms
          | (a, .error e) => (a, .error e)) = _
        rw [show acc.applyMutation (.mtm ts cp) = acc.mark_to_market ts cp from rfl, hcl]
      rw [hrun]
      exact ih _ hne

/-- C6: `close` and `mark_to_market` return the `StateError` exactly when the
valuation history is empty and leave the account unchanged in that case; and
every account produced by `new` and mutated only through `open`, `close` and
`mark_to_market` has a non-empty valuation history (with every mutation
succeeding), so that error branch is unreachable post-construction. -/
theorem history_error_iff_empty :
    (∀ (acc : Account) (ts : NaiveDateTime) (q p f : ℚ),
      ((acc.close ts q p f).2 = .error "No PnL history" ↔
        acc.profit_and_loss_history = []) ∧
      (acc.profit_and_loss_history = [] → (acc.close ts q p f).1 = acc)) ∧
    (∀ (acc : Account) (ts : NaiveDateTime) (cp : ℚ),
      ((acc.mark_to_market ts cp).2 = .error "No PnL history" ↔
        acc.profit_and_loss_history = []) ∧
      (acc.profit_and_loss_history = [] → (acc.mark_to_market ts cp).1 = acc)) ∧
    (∀ (fund : ℚ) (pos : Position) (ts : NaiveDateTime) (ms : List AccountMutation),
      ((Account.new fund pos ts).applyMutations ms).2 = .ok () ∧
      ((Account.new fund pos ts).applyMutations ms).1.profit_and_loss_history ≠ []) := by
  refine ⟨?_, ?_, ?_⟩
  · intro acc ts q p f
    rcases hl : acc.profit_and_loss_history.getLast? with _ | last
    · have he : acc.profit_and_loss_history = [] := List.getLast?_eq_none_iff.mp hl
      exact ⟨by simp [Account.close, hl, he], fun _ => by simp [Account.close, hl]⟩
    · have hne : acc.profit_and_loss_history ≠ [] := by
        intro he; rw [he] at hl; simp at hl
      exact ⟨by simp [Account.close, hl, hne], fun he => absurd he hne⟩
  · intro acc ts cp
    rcases hl : acc.profit_and_loss_history.getLast? with _ | last
    · have he : acc.profit_and_loss_history = [] := List.getLast?_eq_none_iff.mp hl
      exact ⟨by simp [Account.mark_to_market, hl, he], fun _ => by simp [Account.mark_to_market, hl]⟩
    · have hne : acc.profit_and_loss_history ≠ [] := by
        intro he; rw [he] at hl; simp at hl
      exact ⟨by simp [Account.mark_to_market, hl, hne], fun he => absurd he hne⟩
  · intro fund pos ts ms
    exact applyMutations_ok ms (Account.new fund pos ts) (by simp [Account.new])

/-- Witness for `history_error_iff_empty` at concrete inputs: a field-built
account with empty valuation history makes `close` fail and stay unchanged,
and a freshly constructed account keeps a non-empty history through a
mutation sequence. -/
theorem history_error_iff_empty_witness :
    (((⟨0, ⟨0, 0⟩, [], []⟩ : Account).close ⟨2024, 1, 2⟩ 1 1 0).2 = .error "No PnL history" ↔
      (⟨0, ⟨0, 0⟩, [], []⟩ : Account).profit_and_loss_history = []) ∧
    ((⟨0, ⟨0, 0⟩, [], []⟩ : Account).close ⟨2024, 1, 2⟩ 1 1 0).1 = (⟨0, ⟨0, 0⟩, [], []⟩ : Account) ∧
    ((Account.new 1000 ⟨0, 0⟩ ⟨2024, 1, 1⟩).applyMutations
        [.mtm ⟨2024, 1, 2⟩ 10, .cls ⟨2024, 1, 3⟩ 1 10 0]).2 = .ok () ∧
    ((Account.new 1000 ⟨0, 0⟩ ⟨2024, 1, 1⟩).applyMutations
        [.mtm ⟨2024, 1, 2⟩ 10, .cls ⟨2024, 1, 3⟩ 1 10 0]).1.profit_and_loss_history ≠ [] := by
  refine ⟨(history_error_iff_empty.1 ⟨0, ⟨0, 0⟩, [], []⟩ ⟨2024, 1, 2⟩ 1 1 0).1,
    (history_error_iff_empty.1 ⟨0, ⟨0, 0⟩, [], []⟩ ⟨2024, 1, 2⟩ 1 1 0).2 rfl,
    (history_error_iff_empty.2.2 1000 ⟨0, 0⟩ ⟨2024, 1, 1⟩
      [.mtm ⟨2024, 1, 2⟩ 10, .cls ⟨2024, 1, 3⟩ 1 10 0]).1,
    (history_error_iff_empty.2.2 1000 ⟨0, 0⟩ ⟨2024, 1, 1⟩
      [.mtm ⟨2024, 1, 2⟩ 10, .cls ⟨2024, 1, 3⟩ 1 10 0]).2⟩

/-- `BinanceKline` from `data/binance.rs`. -/
structure BinanceKline where
  start_time : NaiveDateTime
  «open» : ℚ
  close : ℚ
  high : ℚ
  low : ℚ
  volume : ℚ
  end_time : NaiveDateTime
  deriving DecidableEq, Repr

/-- `loop_kline` from `main.rs`, generic over the trader exactly as the Rust
function is generic over `T: GenericTrader`; `step` stands for the trait method
`next_trade_session` (whose `&mut` effects become explicit state passing). -/
def loop_kline {T : Type} (step : T → Account → BinanceKline → Except String (T × Account)) :
    T → Account → List BinanceKline → Except String (T × Account)
  | t, acc, [] => .ok (t, acc)
  | t, acc, k :: ks =>
    match step t acc k with
    | .error e => .error e
    | .ok (t', acc') =>
      match acc'.mark_to_market k.end_time k.close with
      | (acc'', .ok _) => loop_kline step t' acc'' ks
      | (_, .error e) => .error e

/-- One observable call made by the run loop: a trader step on a bar, or a
mark-to-market with its arguments. -/
inductive LoopEvent where
  | stepCall (k : BinanceKline)
  | mtmCall (ts : NaiveDateTime) (closing_price : ℚ)
  deriving DecidableEq, Repr

/-- The two calls `loop_kline` makes for one fully processed bar, in order:
the trader step, then mark-to-market at the bar's `end_time` and `close`. -/
def barEvents (k : BinanceKline) : List LoopEvent :=
  [.stepCall k, .mtmCall k.end_time k.close]

/-- `loop_kline` instrumented with the trace of calls it attempts, in order. -/
def loop_kline_events {T : Type}
    (step : T → Account → BinanceKline → Except String (T × Account)) :
    T → Account → List BinanceKline → List LoopEvent × Except String (T × Account)
  | t, acc, [] => ([], .ok (t, acc))
  | t, acc, k :: ks =>
    match step t acc k with
    | .error e => ([.stepCall k], .error e)
    | .ok (t', acc') =>
      match acc'.mark_to_market k.end_time k.close with
      | (_, .error e) => ([.stepCall k, .mtmCall k.end_time k.close], .error e)
      | (acc'', .ok _) =>
        let r := loop_kline_events step t' acc'' ks
        (.stepCall k :: .mtmCall k.end_time k.close :: r.1, r.2)

/-- C7: within one strategy's run, the instrumented loop refines `loop_kline`;
on success the trace is exactly, in input order, step-then-mark-to-market (at
the bar's `end_time` and `close`) for every bar; and on error the trace stops
inside some bar `i` — either right after that bar's failing step, or after its
failing mark-to-market — so no later bar is ever processed. -/
theorem loop_kline_ordering {T : Type}
    (step : T → Account → BinanceKline → Except String (T × Account))
    (t : T) (acc : Account) (klines : List BinanceKline) :
    (loop_kline_events step t acc klines).2 = loop_kline step t acc klines ∧
    (∀ res, loop_kline step t acc klines = .ok res →
      (loop_kline_events step t acc klines).1 = klines.flatMap barEvents) ∧
    (∀ e, loop_kline step t acc klines = .error e →
      ∃ i, ∃ h : i < klines.length,
        (loop_kline_events step t acc klines).1 =
          (klines.take i).flatMap barEvents ++ [.stepCall (klines.get ⟨i, h⟩)] ∨
        (loop_kline_events step t acc klines).1 =
          (klines.take (i + 1)).flatMap barEvents) := by
  induction klines generalizing t acc with
  | nil =>
    refine ⟨rfl, fun res _ => rfl, fun e he => ?_⟩
    simp [loop_kline] at he
  | cons k ks ih =>
    cases hstep : step t acc k with
    | error e =>
      refine ⟨by simp [loop_kline, loop_kline_events, hstep], ?_, ?_⟩
      · intro res hres
        rw [show loop_kline step t acc (k :: ks) = .error e by
          simp [loop_kline, hstep]] at hres
        exact absurd hres (by simp)
      · intro e' _
        refine ⟨0, by simp, Or.inl ?_⟩
        simp [loop_kline_events, hstep, barEvents]
    | ok ta =>
      obtain ⟨t', acc'⟩ := ta
      rcases hmtm : acc'.mark_to_market k.end_time k.close with ⟨acc'', r⟩
      cases r with
      | error e =>
        have hloop : loop_kline step t acc (k :: ks) = .error e := by
          simp [loop_kline, hstep, hmtm]
        have hev : (loop_kline_events step t acc (k :: ks)).1 =
            [.stepCall k, .mtmCall k.end_time k.close] := by
          simp [loop_kline_events, hstep, hmtm]
        refine ⟨by simp [loop_kline_events, hstep, hmtm, hloop], ?_, ?_⟩
        · intro res hres
          rw [hloop] at hres
          exact absurd hres (by simp)
        · intro e' _
          refine ⟨0, by simp, Or.inr ?_⟩
          rw [hev]
          simp [barEvents]
      | ok u =>
        have hloop : loop_kline step t acc (k :: ks) = loop_kline step t' acc'' ks := by
          simp [loop_kline, hstep, hmtm]
        have hev : (loop_kline_events step t acc (k :: ks)).1 =
            .stepCall k :: .mtmCall k.end_time k.close ::
              (loop_kline_events step t' acc'' ks).1 := by
          simp [loop_kline_events, hstep, hmtm]
        obtain ⟨ih1, ih2, ih3⟩ := ih t' acc''
        refine ⟨?_, ?_, ?_⟩
        · rw [hloop, ← ih1]
          simp [loop_kline_events, hstep, hmtm]
        · intro res hres
          rw [hloop] at hres
          rw [hev, ih2 res hres]
          simp [barEvents]
        · intro e' he'
          rw [hloop] at he'
          obtain ⟨i, hi, hcase⟩ := ih3 e' he'
          refine ⟨i + 1, by simpa using hi, ?_⟩
          cases hcase with
          | inl hc =>
            refine Or.inl ?_
            rw [hev, hc]
            simp [barEvents]
          | inr hc =>
            refine Or.inr ?_
            rw [hev, hc]
            simp [barEvents]

/-- Witness for `loop_kline_ordering`: a trader step that always fails makes
the run stop inside the very first bar, with only that bar's step attempted. -/
theorem loop_kline_ordering_witness :
    loop_kline (fun (_ : Unit) _ _ => (Except.error "boom" : Except String (Unit × Account)))
      () (Account.new 1000 ⟨0, 0⟩ ⟨2024, 1, 1⟩)
      [⟨⟨2024, 1, 1⟩, 10, 11, 12, 9, 100, ⟨2024, 1, 2⟩⟩] = .error "boom" ∧
    ∃ i, ∃ h : i < ([⟨⟨2024, 1, 1⟩, 10, 11, 12, 9, 100, ⟨2024, 1, 2⟩⟩] :
        List BinanceKline).length,
      (loop_kline_events
          (fun (_ : Unit) _ _ => (Except.error "boom" : Except String (Unit × Account)))
          () (Account.new 1000 ⟨0, 0⟩ ⟨2024, 1, 1⟩)
          [⟨⟨2024, 1, 1⟩, 10, 11, 12, 9, 100, ⟨2024, 1, 2⟩⟩]).1 =
        (([⟨⟨2024, 1, 1⟩, 10, 11, 12, 9, 100, ⟨2024, 1, 2⟩⟩] :
            List BinanceKline).take i).flatMap barEvents ++
          [.stepCall (([⟨⟨2024, 1, 1⟩, 10, 11, 12, 9, 100, ⟨2024, 1, 2⟩⟩] :
            List BinanceKline).get ⟨i, h⟩)] ∨
      (loop_kline_events
          (fun (_ : Unit) _ _ => (Except.error "boom" : Except String (Unit × Account)))
          () (Account.new 1000 ⟨0, 0⟩ ⟨2024, 1, 1⟩)
          [⟨⟨2024, 1, 1⟩, 10, 11, 12, 9, 100, ⟨2024, 1, 2⟩⟩]).1 =
        (([⟨⟨2024, 1, 1⟩, 10, 11, 12, 9, 100, ⟨2024, 1, 2⟩⟩] :
            List BinanceKline).take (i + 1)).flatMap barEvents := by
  refine ⟨rfl, ?_⟩
  exact (loop_kline_ordering
    (fun (_ : Unit) _ _ => (Except.error "boom" : Except String (Unit × Account)))
    () (Account.new 1000 ⟨0, 0⟩ ⟨2024, 1, 1⟩)
    [⟨⟨2024, 1, 1⟩, 10, 11, 12, 9, 100, ⟨2024, 1, 2⟩⟩]).2.2 "boom" rfl

/-- `yata::core::Action` as the program uses it. -/
inductive Action where
  | buy (strength : Nat)
  | sell (strength : Nat)
  | none
  deriving DecidableEq, Repr

/-- `yata::core::IndicatorResult`: a list of indicator values and a list of
signal actions (`IndicatorResult::new(values, signals)`). -/
structure IndicatorResult where
  values : List ℚ
  signals : List Action
  deriving DecidableEq, Repr

/-- `Dca` config from `indicators/dca.rs` (an empty struct). -/
structure Dca where
  deriving DecidableEq, Repr

/-- `DCAInstance` from `indicators/dca.rs`. -/
structure DCAInstance where
  cfg : Dca
  last_timestamp : NaiveDateTime
  deriving DecidableEq, Repr

/-- `Dca::init`: seeds `last_timestamp` with the magic date 2000-01-01
(the `and_hms_opt` construction cannot fail, so the result is always `ok`). -/
def Dca.init (self : Dca) (_candle : BinanceKline) : Except String DCAInstance :=
  .ok { cfg := self, last_timestamp := ⟨2000, 1, 1⟩ }

/-- `DCAInstance::next_binance_kline`: emits `Buy(1)` when the bar's start-time
month number differs from the remembered one, `None` otherwise, and remembers
the bar's start time. -/
def DCAInstance.next_binance_kline (self : DCAInstance) (candle : BinanceKline) :
    DCAInstance × IndicatorResult :=
  let current_time := candle.start_time
  let current_month := current_time.month
  let last_month := self.last_timestamp.month
  let action := if current_month = last_month then Action.none else Action.buy 1
  ({ self with last_timestamp := current_time },
   { values := [], signals := [action] })

/-- The flat sequence of signals the DCA source emits over a bar sequence,
advancing its state once per bar in order (each bar contributes its single
signal slot). -/
def dca_emit (inst : DCAInstance) : List BinanceKline → List Action
  | [] => []
  | k :: ks =>
    (inst.next_binance_kline k).2.signals ++ dca_emit (inst.next_binance_kline k).1 ks

/-- The DCA output expressed over the bar sequence alone: a bar gets `Buy(1)`
exactly when its start-time month number differs from its predecessor bar's
(the first bar is compared against the tracker's seed month), `None` otherwise. -/
def dcaExpected (last_month : Nat) : List BinanceKline → List Action
  | [] => []
  | k :: ks =>
    (if k.start_time.month = last_month then Action.none else Action.buy 1) ::
      dcaExpected k.start_time.month ks

/-- Modelled from the spec: `StakeSize` lives in the missing `traders.rs`
module root; §4.2 gives the two sizing policies, with the variant names used
throughout `main.rs` and the trader files. -/
inductive StakeSize where
  | fixPercentage (p : ℚ)
  | fixAmount (a : ℚ)
  deriving DecidableEq, Repr

/-- Modelled from the spec: `TradingFee` lives in the missing `traders.rs`
module root; §4.2 gives the percentage-of-notional fee model, with the variant
name used throughout `main.rs` and the trader files. -/
inductive TradingFee where
  | percentageFee (rate : ℚ)
  deriving DecidableEq, Repr

/-- Modelled from the spec: `Hodl` config from the missing `indicators/hodl.rs`
(exported by `indicators.rs`). -/
structure Hodl where
  deriving DecidableEq, Repr

/-- Modelled from the spec: the HODL signal-source state from the missing
`indicators/hodl.rs` — it "buys once on the very first bar, then emits `None`
forever" (§4.4), so its state is whether it has fired. -/
structure HODLInstance where
  fired : Bool
  deriving DecidableEq, Repr

/-- Modelled from the spec: `Hodl::init` seeds the not-yet-fired state. -/
def Hodl.init (_self : Hodl) (_candle : BinanceKline) : Except String HODLInstance :=
  .ok { fired := false }

/-- Modelled from the spec: the HODL source emits `Buy(1)` on the first bar it
sees and `None` on every later bar. -/
def HODLInstance.next_binance_kline (self : HODLInstance) (_candle : BinanceKline) :
    HODLInstance × IndicatorResult :=
  if self.fired then (self, { values := [], signals := [Action.none] })
  else ({ fired := true }, { values := [], signals := [Action.buy 1] })

/-- Modelled from the spec: `yata::methods::SMA` is an external collaborator
(§1 puts indicator maths out of scope).  `SMA::new(window, &v)` seeds a
window-length buffer with `v` and fails on a zero window; `next(x)` shifts `x`
into the buffer and returns the current window mean. -/
structure SMA where
  window : Nat
  buffer : List ℚ
  deriving DecidableEq, Repr

/-- Modelled from the spec: `SMA::new` (external `yata` method constructor). -/
def SMA.new (window : Nat) (value : ℚ) : Except String SMA :=
  if window = 0 then .error "Invalid SMA window"
  else .ok { window := window, buffer := List.replicate window value }

/-- Modelled from the spec: `SMA::next` (external `yata` rolling mean). -/
def SMA.next (self : SMA) (value : ℚ) : SMA × ℚ :=
  let buffer := (self.buffer ++ [value]).drop 1
  ({ self with buffer := buffer }, buffer.sum / (self.window : ℚ))

/-- `SmaPair` config from `indicators/sma.rs`. -/
structure SmaPair where
  short_window : Nat
  long_window : Nat
  deriving DecidableEq, Repr

/-- `SmaPair::new`. -/
def SmaPair.new (short_window long_window : Nat) : SmaPair :=
  { short_window := short_window, long_window := long_window }

/-- `SMAInstance` from `indicators/sma.rs`. -/
structure SMAInstance where
  cfg : SmaPair
  sma1 : SMA
  sma2 : SMA
  last_timestamp : NaiveDateTime
  deriving DecidableEq, Repr

/-- `SMAInstance::new`: both rolling means are seeded from the first value and
the month tracker from the magic date 2000-01-01. -/
def SMAInstance.new (cfg : SmaPair) (first_value : ℚ) : Except String SMAInstance := do
  let sma1 ← SMA.new cfg.short_window first_value
  let sma2 ← SMA.new cfg.long_window first_value
  .ok { cfg := cfg, sma1 := sma1, sma2 := sma2, last_timestamp := ⟨2000, 1, 1⟩ }

/-- `SmaPair::init` (`IndicatorConfig::init`). -/
def SmaPair.init (self : SmaPair) (candle : BinanceKline) : Except String SMAInstance :=
  SMAInstance.new self candle.close

/-- `SMAInstance::next_binance_kline`: once per month-number change the
crossover sign of the two rolling means decides Buy/Sell. -/
def SMAInstance.next_binance_kline (self : SMAInstance) (candle : BinanceKline) :
    SMAInstance × IndicatorResult :=
  let current_month := candle.start_time.month
  let last_month := self.last_timestamp.month
  let r1 := self.sma1.next candle.close
  let r2 := self.sma2.next candle.close
  let action :=
    if current_month = last_month then Action.none
    else if r2.2 < r1.2 then Action.buy 1
    else if r1.2 < r2.2 then Action.sell 1
    else Action.none
  ({ self with sma1 := r1.1, sma2 := r2.1, last_timestamp := candle.start_time },
   { values := [], signals := [action] })

/-- `Sma2` from `indicators/sma2.rs`: an incremental mean over a kept price
list. -/
structure Sma2 where
  window_size : Nat
  prices : List ℚ
  deriving DecidableEq, Repr

/-- `Sma2::new`. -/
def Sma2.new (window_size : Nat) (value : ℚ) : Sma2 :=
  { window_size := window_size, prices := [value] }

/-- `Sma2::moving_average`: `None` until the window is full, else the mean of
the last `window_size` prices. -/
def Sma2.moving_average (self : Sma2) : Option ℚ :=
  if self.prices.length < self.window_size then Option.none
  else some ((self.prices.drop (self.prices.length - self.window_size)).sum /
    (self.window_size : ℚ))

/-- `Sma2::update_price`. -/
def Sma2.update_price (self : Sma2) (price : ℚ) : Sma2 × Option ℚ :=
  let s := { self with prices := self.prices ++ [price] }
  (s, s.moving_average)

/-- Rust's derived `PartialOrd` on `Option<f64>` as the source compares the two
optional means: `None` is below every `Some`. -/
def option_lt : Option ℚ → Option ℚ → Bool
  | Option.none, Option.none => false
  | Option.none, some _ => true
  | some _, Option.none => false
  | some a, some b => decide (a < b)

/-- `Sma2Pair` config from `indicators/sma2.rs`. -/
structure Sma2Pair where
  short_window : Nat
  long_window : Nat
  deriving DecidableEq, Repr

/-- `Sma2Pair::new`. -/
def Sma2Pair.new (short_window long_window : Nat) : Sma2Pair :=
  { short_window := short_window, long_window := long_window }

/-- `SMA2Instance` from `indicators/sma2.rs`. -/
structure SMA2Instance where
  cfg : Sma2Pair
  sma1 : Sma2
  sma2 : Sma2
  last_timestamp : NaiveDateTime
  deriving DecidableEq, Repr

/-- `SMA2Instance::new`. -/
def SMA2Instance.new (cfg : Sma2Pair) (first_value : ℚ) : Except String SMA2Instance :=
  .ok { cfg := cfg
        sma1 := Sma2.new cfg.short_window first_value
        sma2 := Sma2.new cfg.long_window first_value
        last_timestamp := ⟨2000, 1, 1⟩ }

/-- `Sma2Pair::init` (`IndicatorConfig::init`). -/
def Sma2Pair.init (self : Sma2Pair) (candle : BinanceKline) : Except String SMA2Instance :=
  SMA2Instance.new self candle.close

/-- `SMA2Instance::next_binance_kline`. -/
def SMA2Instance.next_binance_kline (self : SMA2Instance) (candle : BinanceKline) :
    SMA2Instance × IndicatorResult :=
  let current_month := candle.start_time.month
  let last_month := self.last_timestamp.month
  let r1 := self.sma1.update_price candle.close
  let r2 := self.sma2.update_price candle.close
  let action :=
    if current_month = last_month then Action.none
    else if option_lt r2.2 r1.2 then Action.buy 1
    else if option_lt r1.2 r2.2 then Action.sell 1
    else Action.none
  ({ self with sma1 := r1.1, sma2 := r2.1, last_timestamp := candle.start_time },
   { values := [], signals := [action] })

/-- Modelled from the spec: `yata::indicators::MACD` is an external
collaborator (§1 puts indicator maths out of scope; §4.4 only fixes that its
output has a second signal slot that drives the decision).  Modelled as an
opaque config whose `init` succeeds given a seed candle. -/
structure MACD where
  deriving DecidableEq, Repr

/-- Modelled from the spec: `MACD::default()`. -/
def MACD.default : MACD := {}

/-- Modelled from the spec: the opaque state of the external MACD oscillator,
retaining only its seed. -/
structure MACDInstance where
  seed : ℚ
  deriving DecidableEq, Repr

/-- Modelled from the spec: `MACD::init` seeded from the first candle. -/
def MACD.init (_self : MACD) (candle : BinanceKline) : Except String MACDInstance :=
  .ok { seed := candle.close }

/-- Modelled from the spec: the external MACD oscillator advanced by one bar;
its two signal slots are opaque to the core and modelled as `None`. -/
def MACDInstance.next_binance_kline (self : MACDInstance) (_candle : BinanceKline) :
    MACDInstance × IndicatorResult :=
  (self, { values := [], signals := [Action.none, Action.none] })

/-- The closed sum of the five plugged-in signal-source states
(`Box<dyn BinanceIndicatorInstance>` in the trader structs). -/
inductive IndicatorInstanceState where
  | hodl (inst : HODLInstance)
  | dca (inst : DCAInstance)
  | sma (inst : SMAInstance)
  | sma2 (inst : SMA2Instance)
  | macd (inst : MACDInstance)
  deriving DecidableEq, Repr

/-- Dispatch of `BinanceIndicatorInstance::next_binance_kline` over the closed
sum of signal sources. -/
def IndicatorInstanceState.next_binance_kline :
    IndicatorInstanceState → BinanceKline → IndicatorInstanceState × IndicatorResult
  | .hodl i, k => (.hodl (i.next_binance_kline k).1, (i.next_binance_kline k).2)
  | .dca i, k => (.dca (i.next_binance_kline k).1, (i.next_binance_kline k).2)
  | .sma i, k => (.sma (i.next_binance_kline k).1, (i.next_binance_kline k).2)
  | .sma2 i, k => (.sma2 (i.next_binance_kline k).1, (i.next_binance_kline k).2)
  | .macd i, k => (.macd (i.next_binance_kline k).1, (i.next_binance_kline k).2)

/-- A trader: the shared shape of the five `*Trader` structs (fee policy,
stake policy, boxed signal source) plus the strategy's fixed decision slot
(its `determine_trade` reads `signals.first()`, or `signals.get(1)` for MACD). -/
structure TraderModel where
  trading_fee : TradingFee
  stake_size : StakeSize
  indicator : IndicatorInstanceState
  decision_slot : Nat
  deriving DecidableEq, Repr

/-- Modelled from the spec: `GenericTrader::next_trade_session` from the
missing `traders.rs` module root (§4.4): query the signal source for the bar,
pick the strategy's decision slot (a missing slot is a config error); on `None`
mutate nothing; on `Buy` size the trade from the stake policy against the
available fund and the bar's close, price the fee from the fee policy, and
`open` at the bar's start time; on `Sell` the same but `close`, propagating its
error. -/
def TraderModel.next_trade_session (self : TraderModel) (account : Account)
    (kline : BinanceKline) : Except String (TraderModel × Account) :=
  let r := self.indicator.next_binance_kline kline
  let self' := { self with indicator := r.1 }
  let price := kline.close
  let quantity :=
    match self.stake_size with
    | .fixPercentage p => p * account.available_fund / price
    | .fixAmount a => a / price
  let fee :=
    match self.trading_fee with
    | .percentageFee rate => rate * price * quantity
  match r.2.signals.get? self.decision_slot with
  | Option.none => .error "No signal found"
  | some Action.none => .ok (self', account)
  | some (Action.buy _) => .ok (self', account.«open» kline.start_time quantity price fee)
  | some (Action.sell _) =>
    match account.close kline.start_time quantity price fee with
    | (account', .ok _) => .ok (self', account')
    | (_, .error e) => .error e

/-- `initialise_account` from `main.rs`: fund 1000, empty position, seeded at
the first bar's start time; errors when no bars were fetched. -/
def initialise_account (klines : List BinanceKline) : Except String Account :=
  match klines.head? with
  | Option.none => .error "No klines fetched"
  | some first_kline => .ok (Account.new 1000 { quantity := 0, cost := 0 } first_kline.start_time)

/-- `MACDTrader::new` from `traders/macd_trader.rs`: requires a first kline,
initialises the MACD source from it; decision slot 1 (`signals.get(1)`). -/
def MACDTrader.new (kline_feed : List BinanceKline) (trading_fee : TradingFee)
    (stake_size : StakeSize) : Except String TraderModel :=
  match kline_feed.head? with
  | Option.none => .error "No klines in MACD feed"
  | some next_kline => do
    let macd ← MACD.default.init next_kline
    .ok { trading_fee := trading_fee, stake_size := stake_size,
          indicator := .macd macd, decision_slot := 1 }

/-- `HODLTrader::new` from `traders/hodl_trader.rs`: stake is
`FixPercentage(1.)`; decision slot 0. -/
def HODLTrader.new (kline_feed : List BinanceKline) (trading_fee : TradingFee) :
    Except String TraderModel :=
  match kline_feed.head? with
  | Option.none => .error "No klines in HODL feed"
  | some next_kline => do
    let hodl ← Hodl.mk.init next_kline
    .ok { trading_fee := trading_fee, stake_size := .fixPercentage 1,
          indicator := .hodl hodl, decision_slot := 0 }

/-- Modelled from the spec: `DCATrader::new` from the missing
`traders/dca_trader.rs` — the same shape as the sibling traders (first-kline
check, `Dca` source, decision slot 0); its stake default is not in the sources
and is modelled as `FixAmount(100.0)` (a per-strategy default, §6). -/
def DCATrader.new (kline_feed : List BinanceKline) (trading_fee : TradingFee) :
    Except String TraderModel :=
  match kline_feed.head? with
  | Option.none => .error "No klines in DCA feed"
  | some next_kline => do
    let dca ← Dca.mk.init next_kline
    .ok { trading_fee := trading_fee, stake_size := .fixAmount 100,
          indicator := .dca dca, decision_slot := 0 }

/-- `SMATrader::new` from `traders/sma_trader.rs`: windows `(1, 2)`, stake
`FixAmount(100.0)`, decision slot 0. -/
def SMATrader.new (kline_feed : List BinanceKline) (trading_fee : TradingFee) :
    Except String TraderModel :=
  match kline_feed.head? with
  | Option.none => .error "No klines in SMA feed"
  | some next_kline => do
    let sma ← (SmaPair.new 1 2).init next_kline
    .ok { trading_fee := trading_fee, stake_size := .fixAmount 100,
          indicator := .sma sma, decision_slot := 0 }

/-- `SMA2Trader::new` from `traders/sma2_trader.rs`: windows `(1, 2)`, stake
`FixAmount(100.0)`, decision slot 0. -/
def SMA2Trader.new (kline_feed : List BinanceKline) (trading_fee : TradingFee) :
    Except String TraderModel :=
  match kline_feed.head? with
  | Option.none => .error "No klines in SMA2 feed"
  | some next_kline => do
    let sma ← (Sma2Pair.new 1 2).init next_kline
    .ok { trading_fee := trading_fee, stake_size := .fixAmount 100,
          indicator := .sma2 sma, decision_slot := 0 }

/-- `initialise_macd_trader` from `main.rs`. -/
def initialise_macd_trader (klines : List BinanceKline) : Except String TraderModel :=
  MACDTrader.new klines (.percentageFee 0.005) (.fixPercentage 1)

/-- `initialise_hodl_trader` from `main.rs`. -/
def initialise_hodl_trader (klines : List BinanceKline) : Except String TraderModel :=
  HODLTrader.new klines (.percentageFee 0.005)

/-- `initialise_dca_trader` from `main.rs`. -/
def initialise_dca_trader (klines : List BinanceKline) : Except String TraderModel :=
  DCATrader.new klines (.percentageFee 0.005)

/-- `initialise_sma_trader` from `main.rs`. -/
def initialise_sma_trader (klines : List BinanceKline) : Except String TraderModel :=
  SMATrader.new klines (.percentageFee 0.005)

/-- `initialise_sma2_trader` from `main.rs`. -/
def initialise_sma2_trader (klines : List BinanceKline) : Except String TraderModel :=
  SMA2Trader.new klines (.percentageFee 0.005)

/-- `backtest_macd` from `main.rs`: one strategy run — account, trader, loop. -/
def backtest_macd (klines : List BinanceKline) : Except String Account := do
  let account ← initialise_account klines
  let trader ← initialise_macd_trader klines
  let r ← loop_kline TraderModel.next_trade_session trader account klines
  .ok r.2

/-- `backtest_hodl` from `main.rs`. -/
def backtest_hodl (klines : List BinanceKline) : Except String Account := do
  let account ← initialise_account klines
  let trader ← initialise_hodl_trader klines
  let r ← loop_kline TraderModel.next_trade_session trader account klines
  .ok r.2

/-- `backtest_dca` from `main.rs`. -/
def backtest_dca (klines : List BinanceKline) : Except String Account := do
  let account ← initialise_account klines
  let trader ← initialise_dca_trader klines
  let r ← loop_kline TraderModel.next_trade_session trader account klines
  .ok r.2

/-- `backtest_sma` from `main.rs`. -/
def backtest_sma (klines : List BinanceKline) : Except String Account := do
  let account ← initialise_account klines
  let trader ← initialise_sma_trader klines
  let r ← loop_kline TraderModel.next_trade_session trader account klines
  .ok r.2

/-- `backtest_sma2` from `main.rs`. -/
def backtest_sma2 (klines : List BinanceKline) : Except String Account := do
  let account ← initialise_account klines
  let trader ← initialise_sma2_trader klines
  let r ← loop_kline TraderModel.next_trade_session trader account klines
  .ok r.2

/-- `backtest` from `main.rs`: spawns the five strategy runs over the shared
immutable bar sequence and joins them all.  The runs share no mutable state, so
the concurrent spawn/join is modelled as the list of the five run results; the
outer `Result` is an error only on a task panic, which the model excludes. -/
def backtest (klines : List BinanceKline) : Except String (List (Except String Account)) :=
  .ok [backtest_macd klines, backtest_hodl klines, backtest_dca klines,
       backtest_sma klines, backtest_sma2 klines]

/-- C8 counterexample: on an empty bar sequence the orchestration entrypoint
does not fail — it returns success, carrying five per-strategy failures — so
it neither fails fast with a `DataError` nor avoids starting the runs (each
listed error was produced inside a run, by its account initialisation). -/
theorem backtest_empty_not_fail_fast :
    backtest [] = .ok (List.replicate 5 (.error "No klines fetched")) ∧
    ∀ e : String, backtest [] ≠ .error e := by
  refine ⟨rfl, ?_⟩
  intro e h
  simp [backtest] at h

/-- C8 (amended): on an empty bar sequence every one of the five strategy runs
is started and each fails with the data error `"No klines fetched"` raised by
`initialise_account`, before any trader is built or any bar processed; the
entrypoint itself returns success carrying those five failures. -/
theorem backtest_empty_per_run_data_error :
    initialise_account ([] : List BinanceKline) = .error "No klines fetched" ∧
    backtest_macd [] = .error "No klines fetched" ∧
    backtest_hodl [] = .error "No klines fetched" ∧
    backtest_dca [] = .error "No klines fetched" ∧
    backtest_sma [] = .error "No klines fetched" ∧
    backtest_sma2 [] = .error "No klines fetched" ∧
    backtest [] = .ok [backtest_macd [], backtest_hodl [], backtest_dca [],
      backtest_sma [], backtest_sma2 []] :=
  ⟨rfl, rfl, rfl, rfl, rfl, rfl, rfl⟩

/-- C9 counterexample: a bar sequence covering exactly one calendar month
(January 2024) on which the freshly initialised DCA source emits no `Buy(1)`
at all — because the seed timestamp 2000-01-01 already has month number 1 —
refuting "Buy(1) exactly once per calendar month, on its first bar". -/
theorem dca_january_no_buy :
    Dca.init {} ⟨⟨2024, 1, 1⟩, 10, 11, 12, 9, 100, ⟨2024, 1, 2⟩⟩ =
      .ok { cfg := {}, last_timestamp := ⟨2000, 1, 1⟩ } ∧
    dca_emit { cfg := {}, last_timestamp := ⟨2000, 1, 1⟩ }
      [⟨⟨2024, 1, 1⟩, 10, 11, 12, 9, 100, ⟨2024, 1, 2⟩⟩] = [Action.none] ∧
    (dca_emit { cfg := {}, last_timestamp := ⟨2000, 1, 1⟩ }
      [⟨⟨2024, 1, 1⟩, 10, 11, 12, 9, 100, ⟨2024, 1, 2⟩⟩]).count (Action.buy 1) = 0 :=
  ⟨rfl, rfl, rfl⟩

/-- C9 (amended): over any bar sequence the DCA source emits, per bar in
order, `Buy(1)` exactly when the bar's start-time month number differs from
the previous bar's (the first bar is compared against the instance's seed
month — January for a fresh instance), and `None` otherwise; years are
ignored, so it is the month-number change, not the calendar month, that
triggers a buy. -/
theorem dca_month_change_characterization (inst : DCAInstance)
    (klines : List BinanceKline) :
    dca_emit inst klines = dcaExpected inst.last_timestamp.month klines := by
  induction klines generalizing inst with
  | nil => rfl
  | cons k ks ih =>
    simp only [dca_emit, dcaExpected, DCAInstance.next_binance_kline]
    rw [ih]
    simp

end CryptoStrategy
